import Mathlib

/-!
Shallow embedding of `src/datatable/graph/rows_node.py`: the row-filter
node hierarchy (`RFNode` and subclasses) and the classifier factory
`make_rowfilter`, together with the execution pipeline (`RFNode.execute`,
`_make_source_rowindex`, `_make_final_rowindex`).

Machine-external collaborators (the native `core.RowIndex` library, the
expression evaluator, the LLVM engine) are represented symbolically: a
`RowIndex` is a syntax tree recording exactly which native constructor /
combinator calls the Python code performs, so that statements such as
"`inverse` is applied before `uplift`" are statements about the shape of
the produced tree.
-/

namespace RowsNode

/-- Data of a single column of a frame.  A boolean column is its list of
values, an integer column its list of values; any other column type only
needs its length here. -/
inductive ColData where
  | boolCol (vals : List Bool)
  | intCol (vals : List Int)
  | otherCol (len : Nat)
deriving DecidableEq

/-- Number of rows stored in a column. -/
def ColData.length : ColData → Nat
  | .boolCol v => v.length
  | .intCol v => v.length
  | .otherCol n => n

/-- A datatable Frame, reduced to what `make_rowfilter` inspects: the
number of columns and the data of column 0. -/
structure DtFrame where
  ncols : Nat
  col0 : ColData
deriving DecidableEq

/-- `Frame.nrows` — the row count of the frame. -/
def DtFrame.nrows (fr : DtFrame) : Nat := fr.col0.length

/-- One element of a `rows` list selector: a Python `int`, a Python
`slice`/`range` (three optional integer fields), or an element of any
other type (which the loop in `make_rowfilter` rejects). -/
inductive Elem where
  | int (e : Int)
  | slice (sa so st : Option Int)
  | bad
deriving DecidableEq

/-- The `rows` argument of `make_rowfilter`, one constructor per branch of
the classifier.  `fnSel ret` models a zero-argument callable whose
invocation returns the selector `ret`; `exprSel mask` models a `BaseExpr`
whose eager evaluation yields the boolean column `mask`. -/
inductive Selector where
  | allSel
  | boolLit (b : Bool)
  | intSel (e : Int)
  | sliceSel (sa so st : Option Int)
  | listSel (fromGen : Bool) (xs : List Elem)
  | npSel (shape : List Nat) (col : ColData)
  | frameSel (fr : DtFrame)
  | fnSel (ret : Selector)
  | exprSel (mask : List Bool)
  | otherSel
deriving DecidableEq

/-- Structured counterparts of the `TTypeError` / `TValueError` messages
raised by `rows_node.py`; each constructor carries exactly the data
interpolated into the corresponding message string. -/
inductive RowsError where
  | typeBoolSelector
  | valueInvalidRow (e : Int) (nrows : Nat)
  | valueBadSlice (pos : Nat)
  | valueInvalidElem (fromGen : Bool) (pos : Nat)
  | valueArrayDim
  | valueArrayDtype
  | valueBoolArrayLength (len nrows : Nat)
  | valueMultiColumn (ncols : Nat)
  | valueBoolFrameLength (fnrows nrows : Nat)
  | typeBadColumnType
  | valueIntColumnBounds (maxval : Int) (nrows : Nat)
  | typeUnexpected (nested : Bool)
deriving DecidableEq

/-- The RFNode subclass chosen by `make_rowfilter`, with the constructor
arguments it is given. -/
inductive RFNode where
  | all
  | slice (start count step : Int)
  | array (positions : List Int)
  | multislice (bases counts steps : List Int)
  | booleanColumn (mask : List Bool)
  | integerColumn (vals : List Int)
  | filterExpr (mask : List Bool)
deriving DecidableEq

/-- Modelled from the spec: `normalize_slice` (and `normalize_range`) live
in `datatable.utils.misc`, which is not under `src/`.  The spec says a
slice/range element is "normalized to a `(start,count,step)` triple
against `nrows`" with "Python-style stop-exclusive semantics" ("invalid
bounds → value error").  This follows CPython `slice.indices` clamping,
returning `none` for a zero step. -/
def normalizeSlice (sa so st : Option Int) (n : Nat) : Option (Int × Int × Int) :=
  let step : Int := st.getD 1
  if step = 0 then none
  else
    let lower : Int := if step < 0 then -1 else 0
    let upper : Int := if step < 0 then (n : Int) - 1 else (n : Int)
    let clamp : Int → Int := fun v => if v < 0 then max (v + (n : Int)) lower else min v upper
    let start : Int := match sa with
      | none => if step < 0 then upper else lower
      | some v => clamp v
    let stop : Int := match so with
      | none => if step < 0 then lower else upper
      | some v => clamp v
    let count : Int :=
      if 0 < step then max 0 ((stop - start + step - 1) / step)
      else max 0 ((start - stop - step - 1) / (-step))
    some (start, count, step)

/-- The element loop of `make_rowfilter` (the `for i, elem in
enumerate(rows)` pass), accumulating `bases`, `counts`, `steps`. -/
def rowsLoop (nrows : Nat) (fromGen : Bool) :
    List Elem → Nat → List Int → List Int → List Int →
    Except RowsError (List Int × List Int × List Int)
  | [], _, bases, counts, steps => .ok (bases, counts, steps)
  | .int e :: rest, i, bases, counts, steps =>
    if -(nrows : Int) ≤ e ∧ e < (nrows : Int) then
      rowsLoop nrows fromGen rest (i + 1) (bases ++ [e % (nrows : Int)]) counts steps
    else
      .error (.valueInvalidRow e nrows)
  | .slice sa so st :: rest, i, bases, counts, steps =>
    match normalizeSlice sa so st nrows with
    | none => .error (.valueBadSlice i)
    | some (start, count, step) =>
      if count = 0 then
        rowsLoop nrows fromGen rest (i + 1) bases counts steps
      else if count = 1 then
        rowsLoop nrows fromGen rest (i + 1) (bases ++ [start]) counts steps
      else
        let padded :=
          if counts.length < bases.length then
            (counts ++ List.replicate (bases.length - counts.length) 1,
             steps ++ List.replicate (bases.length - steps.length) 1)
          else (counts, steps)
        rowsLoop nrows fromGen rest (i + 1)
          (bases ++ [start]) (padded.1 ++ [count]) (padded.2 ++ [step])
  | .bad :: _, i, _, _, _ => .error (.valueInvalidElem fromGen i)

/-- The post-loop collapse in `make_rowfilter`: `if not counts: ...` —
choosing between All / Slice / Array / MultiSlice. -/
def collapseAccum (nrows : Nat) (bases counts steps : List Int) : RFNode :=
  match bases, counts, steps with
  | [b], [], _ => if b = 0 ∧ nrows = 1 then .all else .slice b 1 1
  | bs, [], _ => .array bs
  | [b], c :: _, s :: _ =>
    if b = 0 ∧ c = (nrows : Int) ∧ s = 1 then .all else .slice b c s
  | bs, cs, ss => .multislice bs cs ss

/-- The list/tuple/set branch of `make_rowfilter`: run the element loop,
then collapse the accumulators into a node. -/
def classifyList (nrows : Nat) (fromGen : Bool) (xs : List Elem) :
    Except RowsError RFNode :=
  match rowsLoop nrows fromGen xs 0 [] [] [] with
  | .error e => .error e
  | .ok (bases, counts, steps) => .ok (collapseAccum nrows bases counts steps)

/-- Dimensionality admissibility of a numpy array selector:
one-dimensional, or two-dimensional with one axis of length 1. -/
def npDimOk : List Nat → Bool
  | [_] => true
  | [a, b] => min a b == 1
  | _ => false

/-- `if len(arr.shape) == 2 and arr.shape[1] > 1: arr = arr.T` — the
shape after the conditional transpose. -/
def npTranspose : List Nat → List Nat
  | [a, b] => if 1 < b then [b, a] else [a, b]
  | s => s

/-- `arr.shape[-1]` — the last axis of a shape. -/
def npLastAxis (shape : List Nat) : Nat := shape.getLast?.getD 0

/-- The single-column-Frame branch of `make_rowfilter`. -/
def frameDispatch (nrows : Nat) (fr : DtFrame) : Except RowsError RFNode :=
  if fr.ncols ≠ 1 then .error (.valueMultiColumn fr.ncols)
  else
    match fr.col0 with
    | .boolCol vals =>
      if vals.length ≠ nrows then .error (.valueBoolFrameLength vals.length nrows)
      else .ok (.booleanColumn vals)
    | .intCol vals => .ok (.integerColumn vals)
    | .otherCol _ => .error .typeBadColumnType

/-- The factory `make_rowfilter(rows, ee, _nested)`.  `nrows` stands for
`ee.dt.nrows`.  A bare int/slice is wrapped into a one-element list; a
numpy array is checked and converted into a single-column frame; a
callable is invoked and its result re-dispatched (the code recurses on
`types.FunctionType` regardless of `_nested`, which only selects the
final "unexpected" error message). -/
def makeRowfilter (nrows : Nat) (sel : Selector) (nested : Bool) :
    Except RowsError RFNode :=
  match sel with
  | .allSel => .ok .all
  | .boolLit _ => .error .typeBoolSelector
  | .intSel e => classifyList nrows false [.int e]
  | .sliceSel a b c => classifyList nrows false [.slice a b c]
  | .listSel g xs => classifyList nrows g xs
  | .npSel shape col =>
    if npDimOk shape then
      let shape2 := npTranspose shape
      match col with
      | .otherCol _ => .error .valueArrayDtype
      | .boolCol vals =>
        if npLastAxis shape2 ≠ nrows then
          .error (.valueBoolArrayLength (npLastAxis shape2) nrows)
        else frameDispatch nrows ⟨1, .boolCol vals⟩
      | .intCol vals => frameDispatch nrows ⟨1, .intCol vals⟩
    else .error .valueArrayDim
  | .frameSel fr => frameDispatch nrows fr
  | .fnSel ret => makeRowfilter nrows ret true
  | .exprSel mask => .ok (.filterExpr mask)
  | .otherSel => .error (.typeUnexpected nested)

/-- A native `core.RowIndex`, represented as a syntax tree over the calls
`rows_node.py` makes into the native collaborator: the four constructors
(`rowindex_from_slice`, `_from_array`, `_from_slicelist`, `_from_column`,
`_from_filterfn`) and the two combinators (`inverse`, `uplift`). -/
inductive RowIndex where
  | fromSlice (start count step : Int)
  | fromArray (positions : List Int)
  | fromSlicelist (bases counts steps : List Int)
  | fromColumn (col : ColData)
  | fromFilterfn (ptr nrows : Nat)
  | inverse (ri : RowIndex) (n : Nat)
  | uplift (ri : RowIndex) (target : RowIndex)
deriving DecidableEq

/-- Maximum of a list of integers (used for the queryable `.max` of a
column-derived row index). -/
def intListMax (vals : List Int) : Int := vals.foldl max (vals.headD 0)

/-- The queryable `ri.max` of a native index; `rows_node.py` only queries
it on a column-derived index (spec §6: "index_from_column(column) ->
index, with queryable max position"). -/
def RowIndex.maxPos : RowIndex → Int
  | .fromColumn (.intCol vals) => intListMax vals
  | _ => 0

/-- Result of `_make_source_rowindex`: `None`, the `NotImplemented`
sentinel (FilterExpr), or an actual index. -/
inductive SrcRI where
  | absent
  | notImplementedRI
  | ri (r : RowIndex)
deriving DecidableEq

/-- View a source result as an optional index (`NotImplemented` never
reaches the shared composition rule, which only sees `None` or an index). -/
def SrcRI.toOption : SrcRI → Option RowIndex
  | .ri r => some r
  | _ => none

/-- `RFNode._make_source_rowindex` for each subclass.  The IntegerColumn
variant performs the bounds check `ri.max >= nrows` inside the node after
building the native index from the column. -/
def RFNode.makeSourceRowindex (node : RFNode) (nrows : Nat) :
    Except RowsError SrcRI :=
  match node with
  | .all => .ok .absent
  | .slice b c s => .ok (.ri (.fromSlice b c s))
  | .array xs => .ok (.ri (.fromArray xs))
  | .multislice bs cs ss => .ok (.ri (.fromSlicelist bs cs ss))
  | .booleanColumn vals => .ok (.ri (.fromColumn (.boolCol vals)))
  | .integerColumn vals =>
    let r : RowIndex := .fromColumn (.intCol vals)
    if (nrows : Int) ≤ r.maxPos then
      .error (.valueIntColumnBounds r.maxPos nrows)
    else .ok (.ri r)
  | .filterExpr _ => .ok .notImplementedRI

/-- The shared `RFNode._make_final_rowindex`: if the source index is
`None`, return the target (or the empty zero-count slice when inverted);
otherwise apply `inverse` when the inversion flag is set, then `uplift`
when the context has a pre-existing index. -/
def makeFinalRowindexBase (riSource : Option RowIndex) (inv : Bool)
    (riTarget : Option RowIndex) (nrows : Nat) : Option RowIndex :=
  match riSource with
  | none => if inv then some (.fromSlice 0 0 0) else riTarget
  | some s =>
    let s1 := if inv then RowIndex.inverse s nrows else s
    match riTarget with
    | some t => some (.uplift s1 t)
    | none => some s1

/-- `FilterExprRFNode._make_final_rowindex`: under an
`LlvmEvaluationEngine` (compiled strategy) the index is built from the
compiled function pointer and `nrows` alone; under the eager strategy the
expression's boolean column is turned into an index, then inverted and
uplifted by the node itself. -/
def filterExprMakeFinal (compiled : Bool) (ptr : Nat) (mask : List Bool)
    (inv : Bool) (eeRowindex : Option RowIndex) (nrows : Nat) : RowIndex :=
  if compiled then .fromFilterfn ptr nrows
  else
    let r0 : RowIndex := .fromColumn (.boolCol mask)
    let r1 := if inv then RowIndex.inverse r0 nrows else r0
    match eeRowindex with
    | some t => RowIndex.uplift r1 t
    | none => r1

/-- The slots of the EvaluationEngine touched by `RFNode.execute`:
`dtRowindex` is `ee.dt.internal.rowindex` (the existing index of a view
frame), `rowindex` is `ee.rowindex` (the current-selection reference),
`sourceSlot`/`finalSlot` record what `set_source_rowindex` /
`set_final_rowindex` were given (`none` meaning "never written"). -/
structure EvalContext where
  nrows : Nat
  dtRowindex : Option RowIndex
  rowindex : Option RowIndex
  sourceSlot : Option SrcRI
  finalSlot : Option (Option RowIndex)
deriving DecidableEq

/-- `RFNode.execute`, with mutations made explicit: a raised error
returns the context as it stood at the raise (Python exceptions leave
prior writes in place).  `inv` is the node's `_inverse` flag, `compiled`
whether the engine is an `LlvmEvaluationEngine`, `ptr` the compiled
function pointer it would hand back. -/
def executeNode (node : RFNode) (inv compiled : Bool) (ptr : Nat)
    (ctx : EvalContext) : EvalContext × Option RowsError :=
  match node.makeSourceRowindex ctx.nrows with
  | .error e => (ctx, some e)
  | .ok src =>
    let ctx1 := { ctx with sourceSlot := some src }
    let final : Option RowIndex :=
      match node with
      | .filterExpr mask =>
        some (filterExprMakeFinal compiled ptr mask inv ctx.rowindex ctx.nrows)
      | _ => makeFinalRowindexBase src.toOption inv ctx.dtRowindex ctx.nrows
    ({ ctx1 with finalSlot := some final, rowindex := final }, none)

/-- One whole selection operation: classify the selector with
`make_rowfilter`, then `execute` the resulting node against the context. -/
def runSelection (sel : Selector) (inv compiled : Bool) (ptr : Nat)
    (ctx : EvalContext) : EvalContext × Option RowsError :=
  match makeRowfilter ctx.nrows sel false with
  | .error e => (ctx, some e)
  | .ok node => executeNode node inv compiled ptr ctx

/-!  Helper lemmas. -/

lemma rowsLoop_single_int (nrows : Nat) (e : Int)
    (h1 : -(nrows : Int) ≤ e) (h2 : e < (nrows : Int)) :
    rowsLoop nrows false [.int e] 0 [] [] [] =
      .ok ([e % (nrows : Int)], [], []) := by
  unfold rowsLoop
  rw [if_pos ⟨h1, h2⟩]
  rfl

lemma normalizeSlice_full (n : Nat) :
    normalizeSlice (some 0) (some (n : Int)) (some 1) n =
      some (0, (n : Int), 1) := by
  have h0 : (0 : Int) ≤ (n : Int) := Int.ofNat_nonneg n
  have h1 : ¬((n : Int) < 0) := not_lt.mpr h0
  simp [normalizeSlice, min_eq_left h0, max_eq_right h0, h1, Int.ediv_one]

lemma le_foldl_max (t : List Int) (a n : Int) :
    n ≤ t.foldl max a ↔ n ≤ a ∨ ∃ v ∈ t, n ≤ v := by
  induction t generalizing a with
  | nil => simp
  | cons x tl ih =>
    simp [List.foldl_cons, ih, le_max_iff, or_assoc]

lemma intListMax_ge_iff (vals : List Int) (hne : vals ≠ []) (n : Int) :
    n ≤ intListMax vals ↔ ∃ v ∈ vals, n ≤ v := by
  cases vals with
  | nil => exact absurd rfl hne
  | cons a t =>
    show n ≤ t.foldl max (max a a) ↔ _
    rw [max_self, le_foldl_max]
    simp

/-!  Theorems. -/

/-- C1: the shared composition rule of `RFNode._make_final_rowindex`:
with source index `S`, inversion flag `inv` and pre-existing context
index `T` — if `S` is absent the final index is `T` when `inv` is false
and the empty zero-count slice index when `inv` is true; otherwise the
final index is `uplift(S', T)` when `T` is present and `S'` alone
otherwise, where `S' = inverse(S, nrows)` when `inv` is true and `S'
= S` when `inv` is false (inverse is applied before uplift). -/
theorem c1_composition_rule (s t : RowIndex) (inv : Bool)
    (tOpt : Option RowIndex) (nrows : Nat) :
    makeFinalRowindexBase none false tOpt nrows = tOpt ∧
    makeFinalRowindexBase none true tOpt nrows =
      some (RowIndex.fromSlice 0 0 0) ∧
    makeFinalRowindexBase (some s) inv (some t) nrows =
      some (RowIndex.uplift (if inv then RowIndex.inverse s nrows else s) t) ∧
    makeFinalRowindexBase (some s) inv none nrows =
      some (if inv then RowIndex.inverse s nrows else s) := by
  refine ⟨rfl, rfl, ?_, ?_⟩ <;> cases inv <;> rfl

/-- C2: contrary to the claim (and to the docstring of `make_rowfilter`,
which says `_nested=True` disallows further recursion), a callable that
returns a callable does not fail: the `types.FunctionType` branch never
consults `_nested`, so the inner callable is invoked in turn and its
result is resolved — here `f() = g`, `g() = 5` resolves to the unit
slice at row 5 instead of raising a type-mismatch error. -/
theorem c2_callable_returning_callable :
    makeRowfilter 10 (.fnSel (.fnSel (.intSel 5))) false =
      .ok (RFNode.slice 5 1 1) := rfl

/-- C4: a multi-row slice element following accumulated single-row bases
backfills `counts`/`steps` with 1s; concretely `[0,1,2,5,slice(7,10,1)]`
at `nrows = 10` classifies to MultiSlice with `bases=[0,1,2,5,7]`,
`counts=[1,1,1,1,3]`, `steps=[1,1,1,1,1]`. -/
theorem c4_backfill_concrete :
    makeRowfilter 10 (.listSel false
      [.int 0, .int 1, .int 2, .int 5, .slice (some 7) (some 10) (some 1)])
      false =
      .ok (RFNode.multislice [0, 1, 2, 5, 7] [1, 1, 1, 1, 3]
        [1, 1, 1, 1, 1]) := rfl

/-- C7 counterexample: a boolean numpy array of shape `(10, 1)` holding a
mask of length 10, applied to a frame with `nrows = 10`, has the claimed
"mask length = nrows", yet the classifier fails: the length check
compares the post-transpose last axis `arr.shape[-1]` (which is 1 for
every admissible two-dimensional shape) against `nrows`, raising the
value error with lengths 1 and 10 instead of returning a BooleanColumn
node. -/
theorem c7_counterexample :
    makeRowfilter 10 (.npSel [10, 1] (.boolCol (List.replicate 10 true)))
        false = .error (RowsError.valueBoolArrayLength 1 10) ∧
    makeRowfilter 10 (.npSel [10, 1] (.boolCol (List.replicate 10 true)))
        false ≠ .ok (RFNode.booleanColumn (List.replicate 10 true)) := by
  refine ⟨rfl, fun h => ?_⟩
  have h2 : (Except.error (RowsError.valueBoolArrayLength 1 10) :
      Except RowsError RFNode) =
      .ok (RFNode.booleanColumn (List.replicate 10 true)) := h
  simp at h2

/-- C7 amended: a boolean mask given as a single boolean-column frame or
as a one-dimensional boolean numpy array fails with a value-constraint
error (citing both lengths) exactly when the mask's length differs from
`nrows`, and classifies to a BooleanColumn node when they match; a
two-dimensional unit-axis boolean array, however, is length-checked
against its post-transpose last axis, which is always 1, so it fails
citing lengths 1 and `nrows` whenever `nrows ≠ 1`, regardless of the
mask's length. -/
theorem c7_amended (vals : List Bool) (nrows : Nat) (a b : Nat) :
    makeRowfilter nrows (.frameSel ⟨1, .boolCol vals⟩) false =
      (if vals.length = nrows then .ok (RFNode.booleanColumn vals)
       else .error (.valueBoolFrameLength vals.length nrows)) ∧
    makeRowfilter nrows (.npSel [vals.length] (.boolCol vals)) false =
      (if vals.length = nrows then .ok (RFNode.booleanColumn vals)
       else .error (.valueBoolArrayLength vals.length nrows)) ∧
    makeRowfilter nrows (.npSel [a, b] (.boolCol vals)) false =
      (if min a b = 1 then
        (if nrows = 1 then frameDispatch nrows ⟨1, .boolCol vals⟩
         else .error (.valueBoolArrayLength 1 nrows))
       else .error .valueArrayDim) := by
  refine ⟨?_, ?_, ?_⟩
  · by_cases h : vals.length = nrows <;>
      simp [makeRowfilter, frameDispatch, h]
  · by_cases h : vals.length = nrows <;>
      simp [makeRowfilter, frameDispatch, npDimOk, npTranspose, npLastAxis, h]
  · by_cases hmin : min a b = 1
    · have hlast : npLastAxis (npTranspose [a, b]) = 1 := by
        by_cases hb : 1 < b
        · have ha : a = 1 := by omega
          simp [npTranspose, npLastAxis, hb, ha]
        · have hb1 : b = 1 := by omega
          simp [npTranspose, npLastAxis, hb, hb1]
      by_cases hn : nrows = 1
      · subst hn
        simp [makeRowfilter, npDimOk, hmin, hlast]
      · simp [makeRowfilter, npDimOk, hmin, hlast, hn, Ne.symm hn]
    · simp [makeRowfilter, npDimOk, hmin]

/-- C9: under the compiled strategy `FilterExprRFNode._make_final_rowindex`
builds the final index from the function pointer and `nrows` alone —
independent of the inversion flag and of the context's pre-existing index
— whereas the eager strategy applies inversion and uplift itself. -/
theorem c9_filterexpr_strategies (ptr : Nat) (mask : List Bool)
    (inv : Bool) (eeRi : Option RowIndex) (t : RowIndex) (nrows : Nat) :
    filterExprMakeFinal true ptr mask inv eeRi nrows =
      RowIndex.fromFilterfn ptr nrows ∧
    filterExprMakeFinal false ptr mask true (some t) nrows =
      RowIndex.uplift
        (RowIndex.inverse (RowIndex.fromColumn (.boolCol mask)) nrows) t ∧
    filterExprMakeFinal false ptr mask false (some t) nrows =
      RowIndex.uplift (RowIndex.fromColumn (.boolCol mask)) t ∧
    filterExprMakeFinal false ptr mask inv none nrows =
      (if inv then
        RowIndex.inverse (RowIndex.fromColumn (.boolCol mask)) nrows
       else RowIndex.fromColumn (.boolCol mask)) := by
  refine ⟨rfl, rfl, rfl, ?_⟩
  cases inv <;> rfl

/-- C3 counterexample: at `nrows = 1`, `e = 0` the claim would require the
selector `[0]` to classify to `Slice(start=0, count=1, step=1)`, but the
classifier collapses the singleton base `0` with `nrows == 1` to the All
node instead. -/
theorem c3_counterexample :
    makeRowfilter 1 (.listSel false [.int 0]) false ≠
      .ok (RFNode.slice 0 1 1) := by
  intro h
  have h2 : (Except.ok RFNode.all : Except RowsError RFNode) =
      .ok (RFNode.slice 0 1 1) := h
  simp at h2

/-- C3 amended: for `nrows > 0` and `-nrows ≤ e < nrows`, the selector
`[e]` classifies to the unit-count slice `Slice(e mod nrows, 1, 1)` —
except when `nrows = 1` (so `e mod nrows = 0`), where it collapses to the
All node. -/
theorem c3_amended (nrows : Nat) (e : Int) (h0 : 0 < nrows)
    (h1 : -(nrows : Int) ≤ e) (h2 : e < (nrows : Int)) :
    makeRowfilter nrows (.listSel false [.int e]) false =
      (if nrows = 1 then .ok RFNode.all
       else .ok (RFNode.slice (e % (nrows : Int)) 1 1)) := by
  have hloop := rowsLoop_single_int nrows e h1 h2
  simp only [makeRowfilter, classifyList, hloop]
  by_cases hn : nrows = 1
  · subst hn
    simp [collapseAccum, Int.emod_one]
  · simp [collapseAccum, hn]

/-- C3 witness: at `nrows = 10`, selector `[-1]` classifies to
`Slice(9, 1, 1)`. -/
theorem c3_witness :
    makeRowfilter 10 (.listSel false [.int (-1)]) false =
      .ok (RFNode.slice 9 1 1) := by
  have h := c3_amended 10 (-1) (by decide) (by decide) (by decide)
  rw [if_neg (by decide)] at h
  rw [h]
  rfl

/-- C5 counterexample: at `nrows = 0` the selector `slice(0, nrows, 1)`
does not collapse to All: the normalized slice has count 0 and
contributes nothing, so the classifier returns an Array node over an
empty position list. -/
theorem c5_counterexample :
    makeRowfilter 0 (.sliceSel (some 0) (some 0) (some 1)) false ≠
      .ok RFNode.all := by
  intro h
  have h2 : (Except.ok (RFNode.array []) : Except RowsError RFNode) =
      .ok RFNode.all := h
  simp at h2

/-- C5 amended: for every `nrows ≥ 1` the selector `slice(0, nrows, 1)`
collapses to the All node; and whenever the element loop reduces a list
selector to exactly one multi-row slice entry `(b, c, s)`, the result
collapses to All if that slice spans `[0, nrows)` with step 1 and to
`Slice(b, c, s)` otherwise. -/
theorem c5_amended (nrows : Nat) (hn : 1 ≤ nrows) (g : Bool)
    (xs : List Elem) (b c s : Int)
    (hacc : rowsLoop nrows g xs 0 [] [] [] = .ok ([b], [c], [s])) :
    makeRowfilter nrows (.sliceSel (some 0) (some (nrows : Int)) (some 1))
        false = .ok RFNode.all ∧
    classifyList nrows g xs =
      (if b = 0 ∧ c = (nrows : Int) ∧ s = 1 then .ok RFNode.all
       else .ok (RFNode.slice b c s)) := by
  constructor
  · by_cases h1 : nrows = 1
    · subst h1; rfl
    · have hne0 : ((nrows : Int)) ≠ 0 := by omega
      have hne1 : ((nrows : Int)) ≠ 1 := by omega
      simp only [makeRowfilter, classifyList, rowsLoop, normalizeSlice_full,
        if_neg hne0, if_neg hne1]
      simp [collapseAccum]
  · simp only [classifyList, hacc]
    by_cases hcond : b = 0 ∧ c = (nrows : Int) ∧ s = 1
    · rw [if_pos hcond]
      simp [collapseAccum, hcond.1, hcond.2.1, hcond.2.2]
    · rw [if_neg hcond]
      simp [collapseAccum, if_neg hcond]

/-- C5 witness: at `nrows = 10`, `slice(0, 10, 1)` collapses to All, and
the single multi-row slice `slice(2, 8, 2)` collapses to `Slice(2, 3, 2)`. -/
theorem c5_witness :
    makeRowfilter 10 (.sliceSel (some 0) (some 10) (some 1)) false =
      .ok RFNode.all ∧
    classifyList 10 false [Elem.slice (some 2) (some 8) (some 2)] =
      .ok (RFNode.slice 2 3 2) := by
  have h := c5_amended 10 (by decide) false
    [Elem.slice (some 2) (some 8) (some 2)] 2 3 2 rfl
  exact ⟨by simpa using h.1, by simpa using h.2⟩

/-- C6: for a nonempty integer column, `_make_source_rowindex` fails if
and only if some value in the column is `≥ nrows`; the check compares the
materialized index's maximum against `nrows`, and the error carries that
maximum together with the frame's row count. -/
theorem c6_integer_column_bounds (vals : List Int) (nrows : Nat)
    (hne : vals ≠ []) :
    ((RFNode.integerColumn vals).makeSourceRowindex nrows =
        .error (RowsError.valueIntColumnBounds (intListMax vals) nrows) ↔
      ∃ v ∈ vals, (nrows : Int) ≤ v) ∧
    ((∃ e, (RFNode.integerColumn vals).makeSourceRowindex nrows =
        .error e) ↔
      ∃ v ∈ vals, (nrows : Int) ≤ v) := by
  have hiff := intListMax_ge_iff vals hne ((nrows : Int))
  simp only [RFNode.makeSourceRowindex, RowIndex.maxPos]
  by_cases hle : (nrows : Int) ≤ intListMax vals
  · rw [if_pos hle]
    have hex := hiff.mp hle
    constructor
    · simpa using hex
    · exact iff_of_true ⟨_, rfl⟩ hex
  · rw [if_neg hle]
    have hnex : ¬ ∃ v ∈ vals, (nrows : Int) ≤ v :=
      fun hex => hle (hiff.mpr hex)
    constructor
    · simp [hnex]
    · simp [hnex]

/-- C6 witness: the column `[10, 3]` against `nrows = 10` fails with the
bounds error reporting value 10 and row count 10. -/
theorem c6_witness :
    (RFNode.integerColumn [10, 3]).makeSourceRowindex 10 =
      .error (RowsError.valueIntColumnBounds (intListMax [10, 3]) 10) :=
  (c6_integer_column_bounds [10, 3] 10 (by decide)).1.mpr
    ⟨10, by decide, by decide⟩

/-- C8: atomicity on error — whenever a selection operation
(classification followed by node execution) reports an error, the
evaluation context's final-index slot is exactly as it was before the
operation: no error is raised after the final index has been written. -/
theorem c8_atomicity (sel : Selector) (inv compiled : Bool) (ptr : Nat)
    (ctx : EvalContext) (err : RowsError)
    (h : (runSelection sel inv compiled ptr ctx).2 = some err) :
    (runSelection sel inv compiled ptr ctx).1.finalSlot = ctx.finalSlot := by
  unfold runSelection at h ⊢
  cases hm : makeRowfilter ctx.nrows sel false with
  | error e => simp [hm]
  | ok node =>
    rw [hm] at h
    have h2 : (executeNode node inv compiled ptr ctx).2 = some err := h
    show (executeNode node inv compiled ptr ctx).1.finalSlot = ctx.finalSlot
    unfold executeNode at h2 ⊢
    cases hs : node.makeSourceRowindex ctx.nrows with
    | error e => rfl
    | ok src =>
      rw [hs] at h2
      simp at h2

/-- C8 witness: an integer-column selector containing the out-of-range
value 10 against a 10-row frame errors during execution, and the
context's final-index slot keeps its prior value. -/
theorem c8_witness :
    (runSelection (Selector.frameSel ⟨1, ColData.intCol [10]⟩) false false 0
        ⟨10, none, none, none, some (some (RowIndex.fromSlice 0 5 1))⟩).1.finalSlot =
      some (some (RowIndex.fromSlice 0 5 1)) :=
  c8_atomicity (Selector.frameSel ⟨1, ColData.intCol [10]⟩) false false 0
    ⟨10, none, none, none, some (some (RowIndex.fromSlice 0 5 1))⟩
    (RowsError.valueIntColumnBounds 10 10) rfl

/-- An element of a list selector that contributes zero rows: a slice
whose normalization against `nrows` yields count 0. -/
def elemContributesZero (nrows : Nat) (x : Elem) : Prop :=
  ∃ a b c t, x = Elem.slice a b c ∧
    normalizeSlice a b c nrows = some t ∧ t.2.1 = 0

lemma rowsLoop_all_zero (nrows : Nat) (g : Bool) (xs : List Elem)
    (h : ∀ x ∈ xs, elemContributesZero nrows x) :
    ∀ i, rowsLoop nrows g xs i [] [] [] = .ok ([], [], []) := by
  induction xs with
  | nil => intro i; rfl
  | cons x tl ih =>
    intro i
    obtain ⟨a, b, c, t, hx, hnorm, hcount⟩ := h x (List.mem_cons_self x tl)
    subst hx
    obtain ⟨st, cnt, sp⟩ := t
    simp only at hcount
    subst hcount
    simp only [rowsLoop, hnorm]
    exact ih (fun y hy => h y (List.mem_cons_of_mem _ hy)) (i + 1)

/-- C10: a list selector all of whose elements contribute zero rows — in
particular the empty list `[]` and `[slice(0, 0, 1)]` — classifies to an
Array node over the empty position list, not to the All node. -/
theorem c10_empty_selector (nrows : Nat) (g : Bool) (xs : List Elem)
    (h : ∀ x ∈ xs, elemContributesZero nrows x) :
    makeRowfilter nrows (.listSel g xs) false = .ok (RFNode.array []) ∧
    RFNode.array [] ≠ RFNode.all := by
  refine ⟨?_, by simp⟩
  show classifyList nrows g xs = _
  simp only [classifyList, rowsLoop_all_zero nrows g xs h 0]
  rfl

/-- C10 witness: `[slice(0, 0, 1)]` on a 10-row frame resolves to
`Array([])`. -/
theorem c10_witness :
    makeRowfilter 10 (.listSel false [Elem.slice (some 0) (some 0) (some 1)])
        false = .ok (RFNode.array []) ∧
    RFNode.array [] ≠ RFNode.all := by
  refine c10_empty_selector 10 false _ ?_
  intro x hx
  rw [List.mem_singleton] at hx
  subst hx
  exact ⟨some 0, some 0, some 1, (0, 0, 1), rfl, rfl, rfl⟩

end RowsNode
